import Mathlib

/-!
Shallow embedding of `src/FileUtilOperationTask.c` (repository
Singhmeghna/file_util_operation).

The program walks a directory tree with `nftw` and, depending on the
argument count, either locates a file by name (argc = 3), locates it and
copies or moves it into a storage directory (argc = 5), or collects files
matching an extension substring into a gzip stream `storageDir/a1.tar`
(argc = 4).

Modelling choices:
* A filesystem is an association list from paths (lists of components)
  to nodes (regular file with byte content, or directory).  Lookup takes
  the first binding; insertion conses a new binding.
* The `nftw` traversal is modelled by an explicit list of visit events
  (full path plus the `typeflag` classification).  The traversal order
  and the set of visited entries are environment inputs.  `nftw`
  semantics: when the callback returns a nonzero value the walk stops
  and `nftw` returns that value; the model records which entries were
  actually visited.  OS-level traversal failures (`nftw` returning -1)
  are environment nondeterminism and are not modelled; all claims are
  about runs in which the walk itself reads directories successfully.
* `fopen(p, "rb")` succeeds exactly when `p` resolves to a regular
  file; resolving to a directory is the `EISDIR` failure and any other
  resolution failure (ENOENT, ENOTDIR through a file component) is a
  generic open failure.  `fopen(p, "wb")` succeeds when the parent of
  `p` is an existing directory and `p` itself is not a directory.
* The 1024-byte read/write loops of `copy_or_move_file` and
  `add_file_to_tar` are modelled by `copyLoop`, which appends the
  content chunk by chunk; write calls are modelled as succeeding (the
  short-write branches are environment failures outside the model).
  The copy branch mirrors the sequencing of the C: the destination is
  truncated by its `"wb"` open before the read loop runs, so the bytes
  streamed are the source bytes as they stand after that truncation —
  when source and destination are the same path the file is emptied.
  `rename` is performable when the source exists, the parent of the
  destination is a directory, and the destination is not itself an
  existing directory (the EISDIR failure); renaming a path onto itself
  is the POSIX no-op success that leaves the file in place.
* `gzopen(p, "wb")` truncates the file at `p`; the bytes written are
  the uncompressed payload of the gzip stream.
-/

set_option autoImplicit false

namespace FileUtil

/-- A path is the list of its components; `a/b/c` is `["a","b","c"]`. -/
abbrev Path := List String

/-- A filesystem node: a regular file with its byte content, or a directory. -/
inductive FSNode where
  | file (content : List Nat)
  | dir
deriving DecidableEq

/-- A filesystem: association list from paths to nodes, first binding wins. -/
abbrev FS := List (Path × FSNode)

/-- Look up a path in the filesystem (first binding wins). -/
def fsLookup : FS → Path → Option FSNode
  | [], _ => none
  | kv :: rest, p => if p = kv.1 then some kv.2 else fsLookup rest p

/-- Create or overwrite the node at path `p`. -/
def fsInsert (fs : FS) (p : Path) (n : FSNode) : FS := (p, n) :: fs

/-- Remove the node at path `p` (used to model `rename`). -/
def fsErase (fs : FS) (p : Path) : FS :=
  fs.filter (fun kv => decide (kv.1 ≠ p))

/-- `directory_exists` from the C source: `stat` succeeds and `S_ISDIR`. -/
def directory_exists (fs : FS) (p : Path) : Bool :=
  match fsLookup fs p with
  | some FSNode.dir => true
  | _ => false

/-- `fopen(p, "wb")` succeeds: parent exists as a directory and `p` is
not itself a directory. -/
def fopenWriteOk (fs : FS) (p : Path) : Bool :=
  (match fsLookup fs p.dropLast with
   | some FSNode.dir => true
   | _ => false)
  && (match fsLookup fs p with
      | some FSNode.dir => false
      | _ => true)

/-- The `typeflag` classification `nftw` hands to its callback. -/
inductive TypeFlag where
  | F | D | SL | other
deriving DecidableEq

/-- One visit event of the `nftw` walk: the full path of the entry and
its `typeflag`.  `ftwbuf.base` points at the final component, so the
base name is recoverable from the path. -/
structure FTWEntry where
  fpath : Path
  typeflag : TypeFlag
deriving DecidableEq

/-- `fpath + ftwbuf.base`: the base name (final component) of the path. -/
def baseName (p : Path) : String := p.getLastD ""

/-- Render a path the way `printf("%s\n", fpath)` prints it. -/
def pathString (p : Path) : String := String.intercalate "/" p

/-- Character-by-character prefix test, as `strncmp`-style scanning does it. -/
def prefixMatch : List Char → List Char → Bool
  | [], _ => true
  | _ :: _, [] => false
  | a :: as, b :: bs => a == b && prefixMatch as bs

/-- `strstr(hay, needle) != NULL`: some suffix of the haystack starts
with the needle. -/
def strstrFind (needle : List Char) : List Char → Bool
  | [] => prefixMatch needle []
  | c :: t => prefixMatch needle (c :: t) || strstrFind needle t

/-- `strstr` on strings, returning whether the needle occurs. -/
def strstrB (hay needle : String) : Bool := strstrFind needle.data hay.data

/-- The match test of `search_and_process`: regular file whose base name
equals the entered file name (`strcmp == 0`). -/
def spMatches (target : String) (e : FTWEntry) : Bool :=
  decide (e.typeflag = TypeFlag.F) && decide (baseName e.fpath = target)

/-- The match test of `search_and_create_tar`: regular file whose base
name contains the extension as a substring (`strstr != NULL`). -/
def extMatches (ext : String) (e : FTWEntry) : Bool :=
  decide (e.typeflag = TypeFlag.F) && strstrB (baseName e.fpath) ext

/-- Program state threaded through a run: the filesystem, the
`found_file` global, stdout lines and stderr lines. -/
structure St where
  fs : FS
  found : Option Path
  out : List String
  err : List String
deriving DecidableEq

/-- The 1024-byte buffered read/write loop, with an explicit
termination measure: each iteration takes a chunk of at most 1024 bytes
from the remaining input and appends it to the bytes already written.
The first argument is a fuel bound on the number of remaining bytes;
every iteration consumes at least one byte, so with fuel equal to the
input length the fuel-exhausted branch is unreachable. -/
def copyLoopGo : Nat → List Nat → List Nat → List Nat
  | _, acc, [] => acc
  | 0, acc, rest => acc ++ rest
  | Nat.succ fuel, acc, rest => copyLoopGo fuel (acc ++ rest.take 1024) (rest.drop 1024)

/-- The 1024-byte buffered read/write loop of `copy_or_move_file` and
`add_file_to_tar`: stream `rest` after the already written `acc`. -/
def copyLoop (acc rest : List Nat) : List Nat := copyLoopGo rest.length acc rest

/-- `rename(src, dest)` can be performed: the source exists, the
parent of the destination is a directory, and the destination is not
itself an existing directory (otherwise `rename` fails with EISDIR). -/
def renameOk (fs : FS) (src dest : Path) : Bool :=
  (fsLookup fs src).isSome && directory_exists fs dest.dropLast
    && !(directory_exists fs dest)

/-- `copy_or_move_file` from the C source.  For `-cp` it opens the
source for reading, then opens the destination with `"wb"` — which
truncates it on the spot — and only then streams through the buffer,
so the bytes copied are the source bytes as they stand after the
truncation (empty when source and destination are the same path).  For
`-mv` it renames the source; renaming a path onto itself succeeds as a
no-op.  Failure paths print a `perror` line and leave the filesystem
unchanged. -/
def copy_or_move_file (op : String) (src dest : Path) (s : St) : St :=
  if op = "-cp" then
    match fsLookup s.fs src with
    | some (FSNode.file _) =>
      if fopenWriteOk s.fs dest then
        let fs1 := fsInsert s.fs dest (FSNode.file [])
        let c := match fsLookup fs1 src with
          | some (FSNode.file c1) => c1
          | _ => []
        { s with fs := fsInsert fs1 dest (FSNode.file (copyLoop [] c)),
                 out := s.out ++ ["Search Successful", "File copied to the storageDir"] }
      else { s with err := s.err ++ ["fopen destination file"] }
    | _ => { s with err := s.err ++ ["fopen source file"] }
  else if op = "-mv" then
    match fsLookup s.fs src, directory_exists s.fs dest.dropLast,
        directory_exists s.fs dest with
    | some n, true, false =>
      { s with fs := fsInsert (fsErase s.fs src) dest n,
               out := s.out ++ ["Search Successful", "File moved to the storageDir"] }
    | _, _, _ => { s with err := s.err ++ ["rename"] }
  else s

/-- Configuration globals of the locate modes: entered file name,
storage directory, and the operation (`none` in locate-only mode). -/
structure TransferCfg where
  target : String
  storageDir : Path
  op : Option String

/-- `search_and_process` from the C source, as an `nftw` callback: on a
regular-file entry whose base name equals the target, set `found_file`;
with an operation configured, check the storage directory at this point
and either report `Invalid storageDir` (returning 1, which stops the
walk) or invoke `copy_or_move_file`; without an operation, print the
path.  Everything else is a no-op returning 0. -/
def search_and_process (cfg : TransferCfg) (s : St) (e : FTWEntry) : St × Int :=
  if spMatches cfg.target e then
    let s1 : St := { s with found := some e.fpath }
    match cfg.op with
    | some op =>
      if directory_exists s1.fs cfg.storageDir then
        (copy_or_move_file op e.fpath (cfg.storageDir ++ [cfg.target]) s1, 0)
      else
        ({ s1 with out := s1.out ++ ["Search Successful: Invalid storageDir"] }, 1)
    | none => ({ s1 with out := s1.out ++ [pathString e.fpath] }, 0)
  else (s, 0)

/-- `add_file_to_tar` from the C source.  It joins `dir_path` and
`filename` into the path it reads from — the call site passes the full
file path as `dir_path`, so this derived path goes through the file
itself.  An open failure (EISDIR or any other) is silently skipped;
otherwise the bytes are streamed into the gzip payload. -/
def add_file_to_tar (fs : FS) (dir_path : Path) (filename : String) (tar : List Nat) : List Nat :=
  match fsLookup fs (dir_path ++ [filename]) with
  | some (FSNode.file c) => copyLoop tar c
  | _ => tar

/-- `search_and_create_tar` from the C source, as an `nftw` callback: on
a regular-file entry whose base name contains the extension, print the
path, `gzopen(storageDir/a1.tar, "wb")` (truncating the archive), add
the file, and close.  A failing `gzopen` prints `perror("gzopen")` and
returns 1, stopping the walk. -/
def search_and_create_tar (ext : String) (storageDir : Path) (s : St) (e : FTWEntry) : St × Int :=
  if extMatches ext e then
    let s1 : St := { s with out := s.out ++ [pathString e.fpath] }
    let tarpath : Path := storageDir ++ ["a1.tar"]
    if fopenWriteOk s1.fs tarpath then
      let data := add_file_to_tar s1.fs e.fpath (baseName e.fpath) []
      ({ s1 with fs := fsInsert s1.fs tarpath (FSNode.file data) }, 0)
    else
      ({ s1 with err := s1.err ++ ["gzopen"] }, 1)
  else (s, 0)

/-- The `nftw` walk over a visit sequence: run the callback on each
entry in order; a nonzero callback return stops the walk and becomes
the return value of `nftw`.  Also returns the list of entries that were
actually visited. -/
def nftwRun (step : St → FTWEntry → St × Int) : St → List FTWEntry → St × Int × List FTWEntry
  | s, [] => (s, 0, [])
  | s, e :: es =>
    let r := step s e
    if r.2 = 0 then
      let t := nftwRun step r.1 es
      (t.1, t.2.1, e :: t.2.2)
    else (r.1, r.2, [e])

/-- The observable outcome of one program run. -/
structure RunResult where
  fs : FS
  found : Option Path
  out : List String
  err : List String
  exitCode : Nat
  visited : List FTWEntry
deriving DecidableEq

/-- `main` with argc = 3 (locate only): validate the root directory,
walk with `search_and_process` and no operation, report `Search
Unsuccessful` when nothing was found, exit 0.  `main` compares the
`nftw` result only against -1, and a successful or callback-stopped
walk never returns -1, so the final exit status is 0. -/
def mainLocate (fs : FS) (rootDir : Path) (target : String) (entries : List FTWEntry) : RunResult :=
  if directory_exists fs rootDir = false then
    ⟨fs, none, [], ["Invalid rootDir"], 1, []⟩
  else
    let t := nftwRun (search_and_process ⟨target, [], none⟩) ⟨fs, none, [], []⟩ entries
    if t.1.found = none then
      ⟨t.1.fs, t.1.found, t.1.out ++ ["Search Unsuccessful"], t.1.err, 0, t.2.2⟩
    else ⟨t.1.fs, t.1.found, t.1.out, t.1.err, 0, t.2.2⟩

/-- `main` with argc = 5 (locate plus copy or move): validate the root
directory and the operation flag, walk with `search_and_process`, report
`Search Unsuccessful` when nothing was found, exit 0 (the -1 check on
the `nftw` result never fires, including when the callback stopped the
walk by returning 1). -/
def mainTransfer (fs : FS) (rootDir storageDir : Path) (op target : String)
    (entries : List FTWEntry) : RunResult :=
  if directory_exists fs rootDir = false then
    ⟨fs, none, [], ["Invalid rootDir"], 1, []⟩
  else if op ≠ "-cp" ∧ op ≠ "-mv" then
    ⟨fs, none, [], ["Invalid operation"], 1, []⟩
  else
    let t := nftwRun (search_and_process ⟨target, storageDir, some op⟩) ⟨fs, none, [], []⟩ entries
    if t.1.found = none then
      ⟨t.1.fs, t.1.found, t.1.out ++ ["Search Unsuccessful"], t.1.err, 0, t.2.2⟩
    else ⟨t.1.fs, t.1.found, t.1.out, t.1.err, 0, t.2.2⟩

/-- `main` with argc = 4 (archive by extension): validate root and
storage directories before any traversal, then walk with
`search_and_create_tar` and exit 0. -/
def mainArchive (fs : FS) (rootDir storageDir : Path) (ext : String)
    (entries : List FTWEntry) : RunResult :=
  if directory_exists fs rootDir = false ∨ directory_exists fs storageDir = false then
    ⟨fs, none,
      (if directory_exists fs storageDir = false then ["Search Successful: Invalid storageDir"] else []),
      (if directory_exists fs rootDir = false then ["Invalid rootDir"] else []),
      1, []⟩
  else
    let t := nftwRun (search_and_create_tar ext storageDir) ⟨fs, none, [], []⟩ entries
    ⟨t.1.fs, none, t.1.out, t.1.err, 0, t.2.2⟩

/-- The last element of a list, or a default option when the list is
empty.  Used to state which match the `found_file` record ends up
holding. -/
def lastOr {α : Type} : List α → Option α → Option α
  | [], d => d
  | a :: l, _ => lastOr l (some a)

/-- Written from the specification sentence: the base name "contains
the configured extension as a substring (not an anchored suffix match)".
Used as the comparand for the `strstr` based matcher of the source. -/
def containsSubstring (hay needle : List Char) : Prop :=
  ∃ pre post, pre ++ needle ++ post = hay

/-- Sample tree: root `r` holding one regular file `r/t.txt`; no
storage directory exists. -/
def fsNoStorage : FS := [(["r"], FSNode.dir), (["r", "t.txt"], FSNode.file [7])]

/-- Sample tree for archive mode: root `r` with `r/a.log`, and an
existing storage directory `st`. -/
def fsArchive : FS :=
  [(["r"], FSNode.dir), (["st"], FSNode.dir), (["r", "a.log"], FSNode.file [1, 2, 3])]

/-- Sample tree with two files of the same base name in different
subdirectories of the root, plus a storage directory. -/
def fsTwoMatches : FS :=
  [(["r"], FSNode.dir), (["r", "d1"], FSNode.dir), (["r", "d2"], FSNode.dir),
   (["st"], FSNode.dir),
   (["r", "d1", "t.txt"], FSNode.file [1]), (["r", "d2", "t.txt"], FSNode.file [2])]

/-- Visit sequence of a depth-first walk of `fsTwoMatches`. -/
def entriesTwoMatches : List FTWEntry :=
  [⟨["r"], TypeFlag.D⟩, ⟨["r", "d1"], TypeFlag.D⟩, ⟨["r", "d1", "t.txt"], TypeFlag.F⟩,
   ⟨["r", "d2"], TypeFlag.D⟩, ⟨["r", "d2", "t.txt"], TypeFlag.F⟩]

/-- Visit sequence of a walk of `fsNoStorage`: the root and its file. -/
def entriesOneMatch : List FTWEntry := [⟨["r"], TypeFlag.D⟩, ⟨["r", "t.txt"], TypeFlag.F⟩]

/-- Visit sequence with a further entry after the matching file. -/
def entriesMatchThenMore : List FTWEntry :=
  [⟨["r"], TypeFlag.D⟩, ⟨["r", "t.txt"], TypeFlag.F⟩, ⟨["r", "z.txt"], TypeFlag.F⟩]

/-- Visit sequence of a depth-first walk of `fsArchive`. -/
def entriesArchive : List FTWEntry := [⟨["r"], TypeFlag.D⟩, ⟨["r", "a.log"], TypeFlag.F⟩]

/-- Visit sequence in which no entry matches the extension `.log`. -/
def entriesNoLog : List FTWEntry := [⟨["r"], TypeFlag.D⟩, ⟨["r", "c.txt"], TypeFlag.F⟩]

/-! ## Helper lemmas -/

theorem copyLoopGo_spec :
    ∀ (fuel : Nat) (acc rest : List Nat), rest.length ≤ fuel →
      copyLoopGo fuel acc rest = acc ++ rest := by
  intro fuel
  induction fuel with
  | zero =>
    intro acc rest hle
    have hrest : rest = [] := List.eq_nil_of_length_eq_zero (Nat.le_zero.mp hle)
    subst hrest
    simp [copyLoopGo]
  | succ fuel ih =>
    intro acc rest hle
    cases rest with
    | nil => simp [copyLoopGo]
    | cons b tl =>
      have hlen : ((b :: tl).drop 1024).length ≤ fuel := by
        simp only [List.length_drop, List.length_cons] at *
        omega
      show copyLoopGo fuel (acc ++ (b :: tl).take 1024) ((b :: tl).drop 1024) = acc ++ b :: tl
      rw [ih _ _ hlen, List.append_assoc, List.take_append_drop]

/-- The buffered loop writes exactly the source bytes after the bytes
already written. -/
theorem copyLoop_spec (acc rest : List Nat) : copyLoop acc rest = acc ++ rest :=
  copyLoopGo_spec rest.length acc rest (Nat.le_refl _)

theorem fsLookup_fsInsert (fs : FS) (p q : Path) (n : FSNode) :
    fsLookup (fsInsert fs p n) q = if q = p then some n else fsLookup fs q := rfl

theorem fsLookup_fsErase (fs : FS) (p q : Path) :
    fsLookup (fsErase fs p) q = if q = p then none else fsLookup fs q := by
  induction fs with
  | nil =>
    simp [fsErase, fsLookup]
  | cons kv rest ih =>
    by_cases hk : kv.1 = p
    · have : fsErase (kv :: rest) p = fsErase rest p := by
        simp [fsErase, hk]
      rw [this, ih]
      by_cases hq : q = p
      · simp [hq]
      · have hqk : q ≠ kv.1 := by rw [hk]; exact hq
        simp [hq, fsLookup, hqk]
    · have : fsErase (kv :: rest) p = kv :: fsErase rest p := by
        simp [fsErase, hk]
      rw [this]
      by_cases hq : q = kv.1
      · have hqp : q ≠ p := by rw [hq]; exact hk
        simp [fsLookup, hq, hqp, hk]
      · simp [fsLookup, hq, ih]

theorem append_singleton_ne (p : Path) (a : String) : p ++ [a] ≠ p := by
  intro h
  have := congrArg List.length h
  simp at this

/-- `copy_or_move_file` never changes the `found_file` record. -/
theorem com_found (op : String) (src dest : Path) (s : St) :
    (copy_or_move_file op src dest s).found = s.found := by
  unfold copy_or_move_file
  repeat' split
  all_goals rfl

/-- `copy_or_move_file` touches at most the paths `src` and `dest`. -/
theorem com_fs_lookup (op : String) (src dest q : Path) (s : St)
    (hsrc : q ≠ src) (hdest : q ≠ dest) :
    fsLookup (copy_or_move_file op src dest s).fs q = fsLookup s.fs q := by
  unfold copy_or_move_file
  repeat' split
  all_goals simp [fsInsert, fsLookup, fsLookup_fsErase, hsrc, hdest]

/-- A walk whose callback is a no-op returning 0 on every listed entry
visits every entry, ends in the initial state, and returns 0. -/
theorem nftwRun_id_steps (step : St → FTWEntry → St × Int) :
    ∀ (entries : List FTWEntry) (s : St),
      (∀ (s' : St) (e : FTWEntry), e ∈ entries → step s' e = (s', 0)) →
      nftwRun step s entries = (s, 0, entries) := by
  intro entries
  induction entries with
  | nil => intro s _; rfl
  | cons e es ih =>
    intro s h
    simp only [nftwRun]
    rw [h s e (List.mem_cons_self e es)]
    simp only [reduceIte]
    rw [ih s (fun s' e' he' => h s' e' (List.mem_cons_of_mem e he'))]

/-- The walk always visits the first entry of a nonempty sequence. -/
theorem nftwRun_cons_visited (step : St → FTWEntry → St × Int) (s : St)
    (e : FTWEntry) (es : List FTWEntry) :
    ∃ tl, (nftwRun step s (e :: es)).2.2 = e :: tl := by
  simp only [nftwRun]
  split
  · exact ⟨(nftwRun step (step s e).1 es).2.2, rfl⟩
  · exact ⟨[], rfl⟩

/-- A non-matching entry leaves `search_and_process` as a no-op. -/
theorem sp_no_match (cfg : TransferCfg) (s : St) (e : FTWEntry)
    (h : spMatches cfg.target e = false) :
    search_and_process cfg s e = (s, 0) := by
  simp [search_and_process, h]

/-- A non-matching entry leaves `search_and_create_tar` as a no-op. -/
theorem tar_no_match (ext : String) (storageDir : Path) (s : St) (e : FTWEntry)
    (h : extMatches ext e = false) :
    search_and_create_tar ext storageDir s e = (s, 0) := by
  simp [search_and_create_tar, h]

/-- With an operation configured and a missing storage directory, the
walk runs through the non-matching prefix untouched, then at the first
matching entry records the found file, prints the invalid-storageDir
line, and stops with `nftw` returning 1: only the entries up to and
including the first match are visited. -/
theorem run_invalid_storage (t : String) (stD : Path) (op : String) (m : FTWEntry)
    (post : List FTWEntry) (hm : spMatches t m = true) :
    ∀ (pre : List FTWEntry) (s : St),
      directory_exists s.fs stD = false →
      (∀ e ∈ pre, spMatches t e = false) →
      nftwRun (search_and_process ⟨t, stD, some op⟩) s (pre ++ m :: post) =
        ({ s with found := some m.fpath,
                  out := s.out ++ ["Search Successful: Invalid storageDir"] }, 1, pre ++ [m]) := by
  intro pre
  induction pre with
  | nil =>
    intro s hst _
    simp only [List.nil_append, nftwRun]
    rw [show search_and_process ⟨t, stD, some op⟩ s m =
        ({ s with found := some m.fpath,
                  out := s.out ++ ["Search Successful: Invalid storageDir"] }, 1) from by
      simp [search_and_process, hm, hst]]
    simp
  | cons e pre ih =>
    intro s hst hpre
    have he : spMatches t e = false := hpre e (List.mem_cons_self e pre)
    simp only [List.cons_append, nftwRun]
    rw [sp_no_match ⟨t, stD, some op⟩ s e he]
    simp only [reduceIte, List.append_eq]
    rw [ih s hst (fun e' he' => hpre e' (List.mem_cons_of_mem e he'))]

/-- With an operation configured and an existing storage directory
(assuming no visited entry path collides with the storage directory
itself), the walk never stops, visits every entry, keeps the storage
directory in place, and leaves the found-file record holding the path
of the LAST matching entry. -/
theorem run_transfer_found (t : String) (stD : Path) (op : String) :
    ∀ (entries : List FTWEntry) (s : St),
      directory_exists s.fs stD = true →
      (∀ e ∈ entries, e.fpath ≠ stD) →
      ((nftwRun (search_and_process ⟨t, stD, some op⟩) s entries).1.found
          = lastOr ((entries.filter (spMatches t)).map (fun e => e.fpath)) s.found)
      ∧ (nftwRun (search_and_process ⟨t, stD, some op⟩) s entries).2.1 = 0
      ∧ (nftwRun (search_and_process ⟨t, stD, some op⟩) s entries).2.2 = entries
      ∧ directory_exists
          (nftwRun (search_and_process ⟨t, stD, some op⟩) s entries).1.fs stD = true := by
  intro entries
  induction entries with
  | nil => intro s hst _; exact ⟨rfl, rfl, rfl, hst⟩
  | cons e es ih =>
    intro s hst hne
    have hne_e : e.fpath ≠ stD := hne e (List.mem_cons_self e es)
    have hne_es : ∀ e' ∈ es, e'.fpath ≠ stD :=
      fun e' he' => hne e' (List.mem_cons_of_mem e he')
    by_cases hm : spMatches t e = true
    · have step_eq : search_and_process ⟨t, stD, some op⟩ s e =
          (copy_or_move_file op e.fpath (stD ++ [t]) { s with found := some e.fpath }, 0) := by
        simp [search_and_process, hm, hst]
      have hpres : directory_exists
          (copy_or_move_file op e.fpath (stD ++ [t]) { s with found := some e.fpath }).fs
          stD = true := by
        unfold directory_exists at hst ⊢
        rw [com_fs_lookup op e.fpath (stD ++ [t]) stD _
          (fun h => hne_e h.symm) (fun h => append_singleton_ne stD t h.symm)]
        exact hst
      have hfound : (copy_or_move_file op e.fpath (stD ++ [t])
          { s with found := some e.fpath }).found = some e.fpath :=
        com_found op e.fpath (stD ++ [t]) { s with found := some e.fpath }
      simp only [nftwRun]
      rw [step_eq]
      simp only [reduceIte]
      have ihres := ih (copy_or_move_file op e.fpath (stD ++ [t])
        { s with found := some e.fpath }) hpres hne_es
      refine ⟨?_, ihres.2.1, ?_, ihres.2.2.2⟩
      · rw [ihres.1, hfound]
        simp [List.filter_cons, hm, lastOr]
      · simp only [List.cons.injEq]
        exact ⟨trivial, ihres.2.2.1⟩
    · have hm' : spMatches t e = false := by
        cases h : spMatches t e
        · rfl
        · exact absurd h hm
      simp only [nftwRun]
      rw [sp_no_match ⟨t, stD, some op⟩ s e hm']
      simp only [reduceIte]
      have ihres := ih s hst hne_es
      refine ⟨?_, ihres.2.1, ?_, ihres.2.2.2⟩
      · rw [ihres.1]
        simp [List.filter_cons, hm']
      · simp only [List.cons.injEq]
        exact ⟨trivial, ihres.2.2.1⟩

/-- Character-wise prefix scanning finds exactly the list prefixes. -/
theorem prefixMatch_spec (needle : List Char) :
    ∀ hay, prefixMatch needle hay = true ↔ ∃ t, needle ++ t = hay := by
  induction needle with
  | nil =>
    intro hay
    simp [prefixMatch]
  | cons a as ih =>
    intro hay
    cases hay with
    | nil => simp [prefixMatch]
    | cons b bs =>
      simp only [prefixMatch, Bool.and_eq_true, beq_iff_eq, ih bs, List.cons_append,
        List.cons.injEq]
      constructor
      · rintro ⟨h1, t, h2⟩; exact ⟨t, h1, h2⟩
      · rintro ⟨t, h1, h2⟩; exact ⟨h1, t, h2⟩

/-- `strstr` finds the needle exactly when it occurs as a contiguous
substring anywhere in the haystack. -/
theorem strstrFind_spec (needle : List Char) :
    ∀ hay, strstrFind needle hay = true ↔ containsSubstring hay needle := by
  intro hay
  induction hay with
  | nil =>
    simp only [strstrFind, prefixMatch_spec, containsSubstring]
    constructor
    · rintro ⟨t, ht⟩
      exact ⟨[], t, by simpa using ht⟩
    · rintro ⟨pre, post, h⟩
      rcases List.append_eq_nil.mp h with ⟨h1, h2⟩
      rcases List.append_eq_nil.mp h1 with ⟨h3, h4⟩
      exact ⟨[], by simp [h4]⟩
  | cons c t ih =>
    simp only [strstrFind, Bool.or_eq_true, prefixMatch_spec, ih, containsSubstring]
    constructor
    · rintro (⟨t', ht⟩ | ⟨pre, post, h⟩)
      · exact ⟨[], t', by simpa using ht⟩
      · exact ⟨c :: pre, post, by simp [h]⟩
    · rintro ⟨pre, post, h⟩
      cases pre with
      | nil =>
        left
        exact ⟨post, by simpa using h⟩
      | cons x xs =>
        right
        have hx : x = c ∧ xs ++ needle ++ post = t := by simpa using h
        exact ⟨xs, post, hx.2⟩

/-- With a valid root and a valid operation flag, `main` in transfer
mode reduces to the walk followed by the found-file report, always
exiting 0. -/
theorem mainTransfer_run (fs : FS) (rootDir stD : Path) (op target : String)
    (entries : List FTWEntry)
    (hroot : directory_exists fs rootDir = true)
    (hop : op = "-cp" ∨ op = "-mv") :
    mainTransfer fs rootDir stD op target entries =
      if (nftwRun (search_and_process ⟨target, stD, some op⟩) ⟨fs, none, [], []⟩ entries).1.found
          = none then
        ⟨(nftwRun (search_and_process ⟨target, stD, some op⟩) ⟨fs, none, [], []⟩ entries).1.fs,
         (nftwRun (search_and_process ⟨target, stD, some op⟩) ⟨fs, none, [], []⟩ entries).1.found,
         (nftwRun (search_and_process ⟨target, stD, some op⟩) ⟨fs, none, [], []⟩ entries).1.out
           ++ ["Search Unsuccessful"],
         (nftwRun (search_and_process ⟨target, stD, some op⟩) ⟨fs, none, [], []⟩ entries).1.err,
         0,
         (nftwRun (search_and_process ⟨target, stD, some op⟩) ⟨fs, none, [], []⟩ entries).2.2⟩
      else
        ⟨(nftwRun (search_and_process ⟨target, stD, some op⟩) ⟨fs, none, [], []⟩ entries).1.fs,
         (nftwRun (search_and_process ⟨target, stD, some op⟩) ⟨fs, none, [], []⟩ entries).1.found,
         (nftwRun (search_and_process ⟨target, stD, some op⟩) ⟨fs, none, [], []⟩ entries).1.out,
         (nftwRun (search_and_process ⟨target, stD, some op⟩) ⟨fs, none, [], []⟩ entries).1.err,
         0,
         (nftwRun (search_and_process ⟨target, stD, some op⟩) ⟨fs, none, [], []⟩ entries).2.2⟩ := by
  unfold mainTransfer
  rcases hop with h | h <;> subst h <;> simp [hroot]

/-! ## Claim theorems -/

/-- Claim C1 (code bug evaluated at the failing input): in archive mode
over root `r` holding `r/a.log` with bytes `[1,2,3]`, extension `.log`
and storage `st`, the file matches, yet the final archive
`st/a1.tar` is created with an EMPTY payload: `add_file_to_tar`
receives the full file path as its directory argument, joins it with
the base name again, and the open of `r/a.log/a.log` fails and is
silently skipped, so no file bytes are ever written. -/
theorem archive_payload_empty_despite_match :
    strstrB (baseName ["r", "a.log"]) ".log" = true
    ∧ fsLookup fsArchive ["r", "a.log"] = some (FSNode.file [1, 2, 3])
    ∧ fsLookup (mainArchive fsArchive ["r"] ["st"] ".log" entriesArchive).fs ["st", "a1.tar"]
        = some (FSNode.file []) := by
  decide

/-- Counterexample to claim C2 as stated: with the target found and the
storage directory missing, the run reports the invalid-storageDir
condition but the process exit status is 0, not 1 (the callback returns
1, `nftw` returns 1, and `main` only checks the result against -1). -/
theorem transfer_invalid_storage_exit_counterexample :
    directory_exists fsNoStorage ["st"] = false
    ∧ (mainTransfer fsNoStorage ["r"] ["st"] "-cp" "t.txt" entriesOneMatch).found
        = some ["r", "t.txt"]
    ∧ "Search Successful: Invalid storageDir"
        ∈ (mainTransfer fsNoStorage ["r"] ["st"] "-cp" "t.txt" entriesOneMatch).out
    ∧ (mainTransfer fsNoStorage ["r"] ["st"] "-cp" "t.txt" entriesOneMatch).exitCode = 0 := by
  decide

/-- Claim C2 (amended): for every locate+transfer run in which the
target is found while the storage directory does not exist, the program
reports the invalid-storage-directory condition, performs no filesystem
mutation, and the process exits with status 0 (not 1). -/
theorem transfer_invalid_storage_reports_no_mutation_exit_zero
    (fs : FS) (rootDir stD : Path) (op target : String)
    (pre post : List FTWEntry) (m : FTWEntry)
    (hroot : directory_exists fs rootDir = true)
    (hop : op = "-cp" ∨ op = "-mv")
    (hst : directory_exists fs stD = false)
    (hpre : ∀ e ∈ pre, spMatches target e = false)
    (hm : spMatches target m = true) :
    (mainTransfer fs rootDir stD op target (pre ++ m :: post)).fs = fs
    ∧ "Search Successful: Invalid storageDir"
        ∈ (mainTransfer fs rootDir stD op target (pre ++ m :: post)).out
    ∧ (mainTransfer fs rootDir stD op target (pre ++ m :: post)).exitCode = 0 := by
  rw [mainTransfer_run fs rootDir stD op target (pre ++ m :: post) hroot hop,
    run_invalid_storage target stD op m post hm pre ⟨fs, none, [], []⟩ hst hpre]
  simp

/-- Witness for the amended claim C2 at a concrete input. -/
theorem transfer_invalid_storage_reports_witness :
    (mainTransfer fsNoStorage ["r"] ["st"] "-cp" "t.txt"
        ([⟨["r"], TypeFlag.D⟩] ++ ⟨["r", "t.txt"], TypeFlag.F⟩ :: [])).fs = fsNoStorage
    ∧ "Search Successful: Invalid storageDir"
        ∈ (mainTransfer fsNoStorage ["r"] ["st"] "-cp" "t.txt"
            ([⟨["r"], TypeFlag.D⟩] ++ ⟨["r", "t.txt"], TypeFlag.F⟩ :: [])).out
    ∧ (mainTransfer fsNoStorage ["r"] ["st"] "-cp" "t.txt"
        ([⟨["r"], TypeFlag.D⟩] ++ ⟨["r", "t.txt"], TypeFlag.F⟩ :: [])).exitCode = 0 :=
  transfer_invalid_storage_reports_no_mutation_exit_zero fsNoStorage ["r"] ["st"] "-cp" "t.txt"
    [⟨["r"], TypeFlag.D⟩] [] ⟨["r", "t.txt"], TypeFlag.F⟩
    (by decide) (by decide) (by decide) (by decide) (by decide)

/-- Counterexample to claim C3 as stated: with two entries matching the
target name, the found-file record ends holding the SECOND match and
the copy success line is printed twice — the record is not set at most
once and the copy is not invoked at most once. -/
theorem transfer_first_match_counterexample :
    (mainTransfer fsTwoMatches ["r"] ["st"] "-cp" "t.txt" entriesTwoMatches).found
        = some ["r", "d2", "t.txt"]
    ∧ ((mainTransfer fsTwoMatches ["r"] ["st"] "-cp" "t.txt" entriesTwoMatches).out.count
        "File copied to the storageDir") = 2
    ∧ fsLookup (mainTransfer fsTwoMatches ["r"] ["st"] "-cp" "t.txt" entriesTwoMatches).fs
        ["st", "t.txt"] = some (FSNode.file [2]) := by
  decide

/-- Claim C3 (amended): in transfer modes the found-file record is
overwritten on EVERY matching entry and the copy/move operation runs on
every match: after a run with valid root, operation and storage
directory (no visited path colliding with the storage directory), the
record holds the path of the LAST matching entry, none if there was no
match — last match wins, not first. -/
theorem transfer_found_record_last_match_wins
    (fs : FS) (rootDir stD : Path) (op target : String) (entries : List FTWEntry)
    (hroot : directory_exists fs rootDir = true)
    (hop : op = "-cp" ∨ op = "-mv")
    (hst : directory_exists fs stD = true)
    (hne : ∀ e ∈ entries, e.fpath ≠ stD) :
    (mainTransfer fs rootDir stD op target entries).found
      = lastOr ((entries.filter (spMatches target)).map (fun e => e.fpath)) none := by
  rw [mainTransfer_run fs rootDir stD op target entries hroot hop]
  have h := run_transfer_found target stD op entries ⟨fs, none, [], []⟩ hst hne
  split
  · exact h.1
  · exact h.1

/-- Witness for the amended claim C3 at a concrete input. -/
theorem transfer_found_record_witness :
    (mainTransfer fsTwoMatches ["r"] ["st"] "-cp" "t.txt" entriesTwoMatches).found
      = lastOr ((entriesTwoMatches.filter (spMatches "t.txt")).map (fun e => e.fpath)) none :=
  transfer_found_record_last_match_wins fsTwoMatches ["r"] ["st"] "-cp" "t.txt" entriesTwoMatches
    (by decide) (by decide) (by decide) (by decide)

/-- Counterexample to claim C4 as stated: when a matched entry hits the
nonexistent storage directory the traversal does NOT continue — the
entry after the match is never visited. -/
theorem transfer_traversal_stops_counterexample :
    (mainTransfer fsNoStorage ["r"] ["st"] "-cp" "t.txt" entriesMatchThenMore).visited
        = [⟨["r"], TypeFlag.D⟩, ⟨["r", "t.txt"], TypeFlag.F⟩]
    ∧ (⟨["r", "z.txt"], TypeFlag.F⟩ : FTWEntry)
        ∉ (mainTransfer fsNoStorage ["r"] ["st"] "-cp" "t.txt" entriesMatchThenMore).visited := by
  decide

/-- Claim C4 (amended): in locate+transfer mode, when a matched entry
hits a nonexistent storage directory the WHOLE traversal stops: the
callback returns nonzero, `nftw` terminates, and exactly the entries up
to and including the first match are visited; subsequent entries are
not. -/
theorem transfer_invalid_storage_stops_traversal
    (fs : FS) (rootDir stD : Path) (op target : String)
    (pre post : List FTWEntry) (m : FTWEntry)
    (hroot : directory_exists fs rootDir = true)
    (hop : op = "-cp" ∨ op = "-mv")
    (hst : directory_exists fs stD = false)
    (hpre : ∀ e ∈ pre, spMatches target e = false)
    (hm : spMatches target m = true) :
    (mainTransfer fs rootDir stD op target (pre ++ m :: post)).visited = pre ++ [m] := by
  rw [mainTransfer_run fs rootDir stD op target (pre ++ m :: post) hroot hop,
    run_invalid_storage target stD op m post hm pre ⟨fs, none, [], []⟩ hst hpre]
  simp

/-- Witness for the amended claim C4 at a concrete input. -/
theorem transfer_invalid_storage_stops_witness :
    (mainTransfer fsNoStorage ["r"] ["st"] "-cp" "t.txt"
        ([⟨["r"], TypeFlag.D⟩] ++ ⟨["r", "t.txt"], TypeFlag.F⟩ :: [⟨["r", "z.txt"], TypeFlag.F⟩])).visited
      = [⟨["r"], TypeFlag.D⟩] ++ [⟨["r", "t.txt"], TypeFlag.F⟩] :=
  transfer_invalid_storage_stops_traversal fsNoStorage ["r"] ["st"] "-cp" "t.txt"
    [⟨["r"], TypeFlag.D⟩] [⟨["r", "z.txt"], TypeFlag.F⟩] ⟨["r", "t.txt"], TypeFlag.F⟩
    (by decide) (by decide) (by decide) (by decide) (by decide)

/-- Counterexample to claim C5 as stated: in locate+transfer mode the
storage directory is NOT verified before traversal — with a missing
storage directory the walk still starts and visits entries. -/
theorem transfer_no_storage_precheck_counterexample :
    directory_exists fsNoStorage ["st"] = false
    ∧ (mainTransfer fsNoStorage ["r"] ["st"] "-cp" "absent.txt" [⟨["r"], TypeFlag.D⟩]).visited
        = [⟨["r"], TypeFlag.D⟩] := by
  decide

/-- Claim C5 (amended): only ARCHIVE mode verifies the storage
directory before the traversal of the root begins (an invalid storage
directory means no entry is visited and the process exits 1); in
locate+transfer mode the traversal begins regardless, the storage
directory being checked only when a match is processed. -/
theorem storage_precheck_archive_mode_only
    (fs : FS) (rootDir stD : Path) (ext op target : String)
    (entries : List FTWEntry) (e : FTWEntry) (es : List FTWEntry)
    (hst : directory_exists fs stD = false)
    (hroot : directory_exists fs rootDir = true)
    (hop : op = "-cp" ∨ op = "-mv") :
    (mainArchive fs rootDir stD ext entries).visited = []
    ∧ (mainArchive fs rootDir stD ext entries).exitCode = 1
    ∧ ∃ tl, (mainTransfer fs rootDir stD op target (e :: es)).visited = e :: tl := by
  refine ⟨?_, ?_, ?_⟩
  · unfold mainArchive
    simp [hst]
  · unfold mainArchive
    simp [hst]
  · rw [mainTransfer_run fs rootDir stD op target (e :: es) hroot hop]
    rcases nftwRun_cons_visited (search_and_process ⟨target, stD, some op⟩)
      ⟨fs, none, [], []⟩ e es with ⟨tl, htl⟩
    split
    · exact ⟨tl, htl⟩
    · exact ⟨tl, htl⟩

/-- Witness for the amended claim C5 at a concrete input. -/
theorem storage_precheck_witness :
    (mainArchive fsNoStorage ["r"] ["st"] ".log" entriesOneMatch).visited = []
    ∧ (mainArchive fsNoStorage ["r"] ["st"] ".log" entriesOneMatch).exitCode = 1
    ∧ ∃ tl, (mainTransfer fsNoStorage ["r"] ["st"] "-cp" "t.txt"
        (⟨["r"], TypeFlag.D⟩ :: [⟨["r", "t.txt"], TypeFlag.F⟩])).visited
          = ⟨["r"], TypeFlag.D⟩ :: tl :=
  storage_precheck_archive_mode_only fsNoStorage ["r"] ["st"] ".log" "-cp" "t.txt"
    entriesOneMatch ⟨["r"], TypeFlag.D⟩ [⟨["r", "t.txt"], TypeFlag.F⟩]
    (by decide) (by decide) (by decide)

/-- Counterexample to claim C6 as stated: in the reachable run with
the root doubling as storage directory — `prog r r -cp t.txt` — the
destination path equals the found source path; the `"wb"` open
truncates the file before the read loop runs, so the program empties
the file to zero bytes yet still reports the copy as successful: the
source does NOT still exist unchanged after a reported-successful
copy. -/
theorem copy_aliasing_counterexample :
    fsLookup fsNoStorage ["r", "t.txt"] = some (FSNode.file [7])
    ∧ "File copied to the storageDir"
        ∈ (mainTransfer fsNoStorage ["r"] ["r"] "-cp" "t.txt" entriesOneMatch).out
    ∧ fsLookup (mainTransfer fsNoStorage ["r"] ["r"] "-cp" "t.txt" entriesOneMatch).fs
        ["r", "t.txt"] = some (FSNode.file []) := by
  decide

/-- Claim C6 (amended): after a successful copy between DISTINCT
source and destination paths, the destination holds bytes identical to
the source bytes, the source still exists unchanged, and the copy
success line is reported.  (When the two paths coincide — storage
directory equal to the directory of the match — the destination is
truncated before the read, so the file ends empty while success is
still reported.) -/
theorem copy_destination_identical_source_intact
    (s : St) (src dest : Path) (c : List Nat)
    (hne : src ≠ dest)
    (hsrc : fsLookup s.fs src = some (FSNode.file c))
    (hw : fopenWriteOk s.fs dest = true) :
    fsLookup (copy_or_move_file "-cp" src dest s).fs dest = some (FSNode.file c)
    ∧ fsLookup (copy_or_move_file "-cp" src dest s).fs src = some (FSNode.file c)
    ∧ "File copied to the storageDir" ∈ (copy_or_move_file "-cp" src dest s).out := by
  have h1 : fsLookup (fsInsert s.fs dest (FSNode.file [])) src = some (FSNode.file c) := by
    rw [fsLookup_fsInsert]
    simp [hne, hsrc]
  unfold copy_or_move_file
  rw [if_pos rfl]
  rw [hsrc]
  simp only [hw, if_true, h1]
  refine ⟨?_, ?_, ?_⟩
  · simp [fsInsert, fsLookup, copyLoop_spec]
  · simp only [fsInsert, fsLookup, hne, reduceIte, if_neg hne]
    exact hsrc
  · simp

/-- Witness for the amended claim C6 at a concrete input. -/
theorem copy_destination_identical_witness :
    fsLookup (copy_or_move_file "-cp" ["r", "a.log"] ["st", "a.log"]
        ⟨fsArchive, none, [], []⟩).fs ["st", "a.log"] = some (FSNode.file [1, 2, 3])
    ∧ fsLookup (copy_or_move_file "-cp" ["r", "a.log"] ["st", "a.log"]
        ⟨fsArchive, none, [], []⟩).fs ["r", "a.log"] = some (FSNode.file [1, 2, 3])
    ∧ "File copied to the storageDir"
        ∈ (copy_or_move_file "-cp" ["r", "a.log"] ["st", "a.log"] ⟨fsArchive, none, [], []⟩).out :=
  copy_destination_identical_source_intact ⟨fsArchive, none, [], []⟩ ["r", "a.log"]
    ["st", "a.log"] [1, 2, 3] (by decide) (by decide) (by decide)

/-- Counterexample to claim C7 as stated: in the reachable run with
the root doubling as storage directory — `prog r r -mv t.txt` — the
rename target equals the found source path, `rename(p, p)` succeeds as
a POSIX no-op, the move success line is printed, yet the source path
still exists afterwards: "the destination exists and the source path
no longer exists" is false for this successful move. -/
theorem move_aliasing_counterexample :
    "File moved to the storageDir"
        ∈ (mainTransfer fsNoStorage ["r"] ["r"] "-mv" "t.txt" entriesOneMatch).out
    ∧ fsLookup (mainTransfer fsNoStorage ["r"] ["r"] "-mv" "t.txt" entriesOneMatch).fs
        ["r", "t.txt"] = some (FSNode.file [7]) := by
  decide

/-- Claim C7 (amended): for every move operation, either the rename
can be performed (source exists, destination parent is a directory,
destination is not an existing directory — which would be the EISDIR
failure) — after which the destination holds the original node,
success is reported, and, whenever source and destination are DISTINCT
paths, the source path no longer exists (a same-path rename is a no-op
that leaves the file in place) — or the rename cannot be performed and
the operation reports failure with the filesystem unchanged. -/
theorem move_succeeds_or_reports_failure
    (s : St) (src dest : Path) :
    (renameOk s.fs src dest = true
      ∧ fsLookup (copy_or_move_file "-mv" src dest s).fs dest = fsLookup s.fs src
      ∧ (src ≠ dest → fsLookup (copy_or_move_file "-mv" src dest s).fs src = none)
      ∧ "File moved to the storageDir" ∈ (copy_or_move_file "-mv" src dest s).out)
    ∨ (renameOk s.fs src dest = false
      ∧ (copy_or_move_file "-mv" src dest s).fs = s.fs
      ∧ "rename" ∈ (copy_or_move_file "-mv" src dest s).err) := by
  have hcp : ¬ (("-mv" : String) = "-cp") := by decide
  unfold copy_or_move_file
  rw [if_neg hcp, if_pos rfl]
  cases hsrc : fsLookup s.fs src with
  | none =>
    right
    refine ⟨?_, ?_, ?_⟩
    · simp [renameOk, hsrc]
    · simp [hsrc]
    · simp [hsrc]
  | some n =>
    cases hdirp : directory_exists s.fs dest.dropLast with
    | false =>
      right
      refine ⟨?_, ?_, ?_⟩
      · simp [renameOk, hdirp]
      · simp [hsrc, hdirp]
      · simp [hsrc, hdirp]
    | true =>
      cases hdd : directory_exists s.fs dest with
      | true =>
        right
        refine ⟨?_, ?_, ?_⟩
        · simp [renameOk, hdd]
        · simp [hsrc, hdirp, hdd]
        · simp [hsrc, hdirp, hdd]
      | false =>
        left
        refine ⟨?_, ?_, ?_, ?_⟩
        · simp [renameOk, hsrc, hdirp, hdd]
        · simp [hsrc, hdirp, hdd, fsInsert, fsLookup]
        · intro hne
          simp [hsrc, hdirp, hdd, fsInsert, fsLookup, hne, fsLookup_fsErase]
        · simp [hsrc, hdirp, hdd]

/-- Witness for the amended claim C7 at a concrete input. -/
theorem move_succeeds_witness :
    (renameOk fsArchive ["r", "a.log"] ["st", "a.log"] = true
      ∧ fsLookup (copy_or_move_file "-mv" ["r", "a.log"] ["st", "a.log"]
          ⟨fsArchive, none, [], []⟩).fs ["st", "a.log"]
        = fsLookup fsArchive ["r", "a.log"]
      ∧ ((["r", "a.log"] : Path) ≠ ["st", "a.log"] →
          fsLookup (copy_or_move_file "-mv" ["r", "a.log"] ["st", "a.log"]
            ⟨fsArchive, none, [], []⟩).fs ["r", "a.log"] = none)
      ∧ "File moved to the storageDir"
          ∈ (copy_or_move_file "-mv" ["r", "a.log"] ["st", "a.log"]
              ⟨fsArchive, none, [], []⟩).out)
    ∨ (renameOk fsArchive ["r", "a.log"] ["st", "a.log"] = false
      ∧ (copy_or_move_file "-mv" ["r", "a.log"] ["st", "a.log"]
          ⟨fsArchive, none, [], []⟩).fs = fsArchive
      ∧ "rename" ∈ (copy_or_move_file "-mv" ["r", "a.log"] ["st", "a.log"]
          ⟨fsArchive, none, [], []⟩).err) :=
  move_succeeds_or_reports_failure ⟨fsArchive, none, [], []⟩ ["r", "a.log"] ["st", "a.log"]

/-- Claim C8: archive-mode matching is substring containment anywhere
in the base name of a regular file (not an anchored suffix match); in
particular a file named `readme.logfile` matches the pattern `.log`. -/
theorem extension_match_is_substring_anywhere :
    (∀ (ext : String) (e : FTWEntry),
        extMatches ext e = true ↔
          (e.typeflag = TypeFlag.F ∧ containsSubstring (baseName e.fpath).data ext.data))
    ∧ extMatches ".log" ⟨["readme.logfile"], TypeFlag.F⟩ = true := by
  constructor
  · intro ext e
    simp [extMatches, strstrB, strstrFind_spec]
  · decide

/-- Claim C9: when no entry matches the target name, locate mode (with
or without a transfer operation) prints the search-unsuccessful line
and exits with status 0, not an error status. -/
theorem locate_absent_prints_unsuccessful_exits_zero
    (fs : FS) (rootDir stD : Path) (op target : String) (entries : List FTWEntry)
    (hroot : directory_exists fs rootDir = true)
    (hop : op = "-cp" ∨ op = "-mv")
    (habs : ∀ e ∈ entries, spMatches target e = false) :
    ((mainLocate fs rootDir target entries).out = ["Search Unsuccessful"]
      ∧ (mainLocate fs rootDir target entries).exitCode = 0)
    ∧ ((mainTransfer fs rootDir stD op target entries).out = ["Search Unsuccessful"]
      ∧ (mainTransfer fs rootDir stD op target entries).exitCode = 0) := by
  have hrun0 : nftwRun (search_and_process ⟨target, [], none⟩) ⟨fs, none, [], []⟩ entries
      = (⟨fs, none, [], []⟩, 0, entries) :=
    nftwRun_id_steps _ entries _ (fun s' e he => sp_no_match _ s' e (habs e he))
  have hrun1 : nftwRun (search_and_process ⟨target, stD, some op⟩) ⟨fs, none, [], []⟩ entries
      = (⟨fs, none, [], []⟩, 0, entries) :=
    nftwRun_id_steps _ entries _ (fun s' e he => sp_no_match _ s' e (habs e he))
  constructor
  · constructor
    · unfold mainLocate
      simp [hroot, hrun0]
    · unfold mainLocate
      simp [hroot, hrun0]
  · rw [mainTransfer_run fs rootDir stD op target entries hroot hop, hrun1]
    constructor
    · simp
    · simp

/-- Witness for claim C9 at a concrete input. -/
theorem locate_absent_witness :
    ((mainLocate fsNoStorage ["r"] "absent.txt" entriesOneMatch).out = ["Search Unsuccessful"]
      ∧ (mainLocate fsNoStorage ["r"] "absent.txt" entriesOneMatch).exitCode = 0)
    ∧ ((mainTransfer fsNoStorage ["r"] ["st"] "-cp" "absent.txt" entriesOneMatch).out
          = ["Search Unsuccessful"]
      ∧ (mainTransfer fsNoStorage ["r"] ["st"] "-cp" "absent.txt" entriesOneMatch).exitCode
          = 0) :=
  locate_absent_prints_unsuccessful_exits_zero fsNoStorage ["r"] ["st"] "-cp" "absent.txt"
    entriesOneMatch (by decide) (by decide) (by decide)

/-- Claim C10: in archive mode, when no visited entry matches the
extension pattern, the whole filesystem — in particular the archive
path `storageDir/a1.tar` — is left untouched: the gzip handle is only
ever opened inside the per-match branch. -/
theorem archive_no_match_filesystem_untouched
    (fs : FS) (rootDir stD : Path) (ext : String) (entries : List FTWEntry)
    (h : ∀ e ∈ entries, extMatches ext e = false) :
    (mainArchive fs rootDir stD ext entries).fs = fs := by
  unfold mainArchive
  split
  · rfl
  · rw [nftwRun_id_steps _ entries _ (fun s' e he => tar_no_match ext stD s' e (h e he))]

/-- Witness for claim C10 at a concrete input. -/
theorem archive_no_match_witness :
    (mainArchive fsArchive ["r"] ["st"] ".log" entriesNoLog).fs = fsArchive :=
  archive_no_match_filesystem_untouched fsArchive ["r"] ["st"] ".log" entriesNoLog (by decide)

end FileUtil
